import Mathlib

/-!
Verification of the tlpipe time-ordered-data core against its sources.

Shallow embedding of:
* `tlpipe/timestream/raw_timestream.py` — `feed_select`, `_get_ind` and
  `separate_pol_and_bl` (polarization / baseline separation);
* `tlpipe/timestream/freq_flag.py` — the frequency-axis sigma-clipping stage;
* `tlpipe/utils/multiscale.py` — starlet / multiscale-median transforms.

Integer identifiers are `Nat`, complex visibility values are modelled as
Gaussian integers `ℤ × ℤ` (real, imaginary) with exact conjugation, and the
flagging / wavelet numerics are modelled over `ℚ` (exact arithmetic).
-/

/-- Python `list.index` returning `none` instead of raising `ValueError`:
first index of `x` in `l`. -/
def index? {α : Type} [DecidableEq α] : List α → α → Option ℕ
  | [], _ => none
  | y :: ys, x => if y = x then some 0 else (index? ys x).map (· + 1)

/-- A list comprehension in which each element may raise (propagating the
exception): `none` as soon as one element fails. -/
def mapOpt {α β : Type} (f : α → Option β) : List α → Option (List β)
  | [] => some []
  | x :: xs =>
    match f x, mapOpt f xs with
    | some y, some ys => some (y :: ys)
    | _, _ => none

/-- The double comprehension `[ (as[i], bs[j]) for i in range(n) for j in
range(i, n) ]` used throughout `separate_pol_and_bl` (for two co-indexed
lists of equal length `n`). -/
def crossPairs {α β : Type} : List α → List β → List (α × β)
  | [], _ => []
  | _ :: _, [] => []
  | a :: as_, b :: bs => ((b :: bs).map (fun y => (a, y))) ++ crossPairs as_ bs

/-- `itertools.combinations(l, 2)`: pairs `(l[i], l[j])` with `i < j`. -/
def combs2 {α : Type} : List α → List (α × α)
  | [] => []
  | x :: xs => (xs.map (fun y => (x, y))) ++ combs2 xs

/-- `itertools.combinations_with_replacement(l, 2)`: pairs with `i ≤ j`. -/
def combsWR2 {α : Type} : List α → List (α × α)
  | [] => []
  | x :: xs => (x, x) :: ((xs.map (fun y => (x, y))) ++ combsWR2 xs)

/-- Complex conjugation on the Gaussian-integer model of visibilities. -/
def cconj (z : ℤ × ℤ) : ℤ × ℤ := (z.1, -z.2)

section IndexLemmas

variable {α : Type} [DecidableEq α]

theorem index?_eq_none_iff (l : List α) (x : α) : index? l x = none ↔ x ∉ l := by
  induction l with
  | nil => simp [index?]
  | cons y ys ih =>
    by_cases hyx : y = x
    · simp [index?, hyx]
    · simp [index?, hyx, Option.map_eq_none, ih, Ne.symm hyx]

theorem index?_isSome_iff (l : List α) (x : α) : (index? l x).isSome = true ↔ x ∈ l := by
  rw [Option.isSome_iff_ne_none]
  exact not_iff_comm.mp (index?_eq_none_iff l x).symm

theorem index?_some_spec (d : α) :
    ∀ (l : List α) (x : α) (i : ℕ), index? l x = some i →
      i < l.length ∧ l.getD i d = x := by
  intro l
  induction l with
  | nil => intro x i h; simp [index?] at h
  | cons y ys ih =>
    intro x i h
    by_cases hyx : y = x
    · simp [index?, hyx] at h
      simp [← h, hyx]
    · simp [index?, hyx] at h
      obtain ⟨j, hj, hji⟩ := h
      obtain ⟨hlt, hget⟩ := ih x j hj
      subst hji
      exact ⟨Nat.succ_lt_succ hlt, by simpa [List.getD_cons_succ] using hget⟩

end IndexLemmas

section MapOptLemmas

variable {α β : Type}

theorem mapOpt_some_spec (dα : α) (dβ : β) (f : α → Option β) :
    ∀ (l : List α) (r : List β), mapOpt f l = some r →
      r.length = l.length ∧ ∀ k, k < l.length → f (l.getD k dα) = some (r.getD k dβ) := by
  intro l
  induction l with
  | nil =>
    intro r h
    simp [mapOpt] at h
    simp [← h]
  | cons x xs ih =>
    intro r h
    simp only [mapOpt] at h
    cases hx : f x with
    | none => rw [hx] at h; exact absurd h (by simp)
    | some y =>
      rw [hx] at h
      cases hxs : mapOpt f xs with
      | none => rw [hxs] at h; exact absurd h (by simp)
      | some ys =>
        rw [hxs] at h
        simp at h
        obtain ⟨hlen, hall⟩ := ih ys hxs
        constructor
        · simp [← h, hlen]
        · intro k hk
          cases k with
          | zero => simpa [← h] using hx
          | succ k' =>
            simp only [← h, List.getD_cons_succ]
            exact hall k' (by simpa [Nat.succ_lt_succ_iff] using hk)

end MapOptLemmas

/-! ## Raw timestream container and `separate_pol_and_bl`
(`tlpipe/timestream/raw_timestream.py`) -/

/-- The value-level content of a `RawTimestream` container: feed numbers,
the feed→channel map (`channo`, co-indexed with `feedno`), the baseline
order (list of channel pairs), the main visibility dataset `vis` indexed by
(time, frequency, baseline index) and its mask `vis_mask`. -/
structure Raw where
  feedno : List ℕ
  channo : List (ℕ × ℕ)
  blorder : List (ℕ × ℕ)
  vis : ℕ → ℕ → ℕ → ℤ × ℤ
  vis_mask : ℕ → ℕ → ℕ → Bool

/-- The value-level content of the separated `Timestream` container produced
by `separate_pol_and_bl`: `vis` and `vis_mask` are indexed by
(time, frequency, polarization, baseline index); `blorder` is a list of feed
pairs. -/
structure TS where
  pol : List String
  blorder : List (ℕ × ℕ)
  vis : ℕ → ℕ → ℕ → ℕ → ℤ × ℤ
  vis_mask : ℕ → ℕ → ℕ → ℕ → Bool

/-- `_get_ind` of `separate_pol_and_bl` (raw_timestream.py lines 205-212):
look a channel pair up in `blorder` (forward orientation); on `ValueError`
look it up in `conj_blorder` (the reversed tuples) and flag conjugation;
`none` models the uncaught `ValueError` when both lookups fail. -/
def getInd (blorder : List (ℕ × ℕ)) (chp : ℕ × ℕ) : Option (Bool × ℕ) :=
  match index? blorder chp with
  | some i => some (false, i)
  | none =>
    match index? (blorder.map Prod.swap) chp with
    | some i => some (true, i)
    | none => none

/-- `feedno = sorted(self['feedno'][:].tolist())` (line 195). -/
def sortedFeedno (rt : Raw) : List ℕ := rt.feedno.insertionSort (· ≤ ·)

/-- `xchans = [ self['channo'][feedno.index(fd)][0] for fd in feedno ]`
(line 196), with `feedno` the sorted list. -/
def xchans (rt : Raw) : List ℕ :=
  (sortedFeedno rt).map
    (fun fd => (rt.channo.getD ((index? (sortedFeedno rt) fd).getD 0) (0, 0)).1)

/-- `ychans = [ self['channo'][feedno.index(fd)][1] for fd in feedno ]`
(line 197). -/
def ychans (rt : Raw) : List ℕ :=
  (sortedFeedno rt).map
    (fun fd => (rt.channo.getD ((index? (sortedFeedno rt) fd).getD 0) (0, 0)).2)

/-- The `xx_pairs` / `yy_pairs` / `xy_pairs` / `yx_pairs` channel-pair lists
(lines 200-203), indexed by the polarization slot 0..3. -/
def polPairs (rt : Raw) : ℕ → List (ℕ × ℕ)
  | 0 => crossPairs (xchans rt) (xchans rt)
  | 1 => crossPairs (ychans rt) (ychans rt)
  | 2 => crossPairs (xchans rt) (ychans rt)
  | 3 => crossPairs (ychans rt) (xchans rt)
  | _ => []

/-- The conjugate-flag / baseline-index pair resolved for the `k`-th channel
pair of polarization slot `p` (default `(false, 0)` out of range). -/
def resolvedInd (rt : Raw) (p k : ℕ) : Bool × ℕ :=
  (getInd rt.blorder ((polPairs rt p).getD k (0, 0))).getD (false, 0)

/-- `separate_pol_and_bl` (lines 172-322), value level: build the four
index/conjugate vectors with `_get_ind`, gather the visibilities with
conjugation where flagged (lines 230-237), gather the mask with the same
index vectors and no conjugation (lines 248-255), set the `pol` labels
(line 265) and the feed-pair `blorder` (line 269).  `none` models the
`ValueError` escaping from `_get_ind`. -/
def separate (rt : Raw) : Option TS := do
  let xxList ← mapOpt (getInd rt.blorder) (polPairs rt 0)
  let yyList ← mapOpt (getInd rt.blorder) (polPairs rt 1)
  let xyList ← mapOpt (getInd rt.blorder) (polPairs rt 2)
  let yxList ← mapOpt (getInd rt.blorder) (polPairs rt 3)
  some
      { pol := ["xx", "yy", "xy", "yx"]
        blorder := crossPairs (sortedFeedno rt) (sortedFeedno rt)
        vis := fun t f p k =>
          let gat := fun (lst : List (Bool × ℕ)) =>
            let ci := lst.getD k (false, 0)
            if ci.1 then cconj (rt.vis t f ci.2) else rt.vis t f ci.2
          match p with
          | 0 => gat xxList
          | 1 => gat yyList
          | 2 => gat xyList
          | 3 => gat yxList
          | _ => (0, 0)
        vis_mask := fun t f p k =>
          let gat := fun (lst : List (Bool × ℕ)) => rt.vis_mask t f (lst.getD k (false, 0)).2
          match p with
          | 0 => gat xxList
          | 1 => gat yyList
          | 2 => gat xyList
          | 3 => gat yxList
          | _ => false }

/-- Stated from the spec's words, for comparison with the source-derived
construction: "the list of feed pairs `(feedno[i], feedno[j])` for every
`i ≤ j` over the sorted feed-number list, in ascending `(i, j)` order". -/
def specUpperPairs (s : List ℕ) : List (ℕ × ℕ) :=
  (List.range s.length).flatMap
    (fun i => ((List.range s.length).filter (fun j => decide (i ≤ j))).map
      (fun j => (s.getD i 0, s.getD j 0)))

theorem range_map_getD {α : Type} (d : α) :
    ∀ (l : List α), (List.range l.length).map (fun j => l.getD j d) = l := by
  intro l
  induction l with
  | nil => simp
  | cons x xs ih =>
    rw [List.length_cons, List.range_succ_eq_map, List.map_cons, List.map_map]
    have hc : ((fun j => (x :: xs).getD j d) ∘ Nat.succ) = (fun j => xs.getD j d) := by
      funext j
      simp [List.getD_cons_succ]
    rw [List.getD_cons_zero, hc, ih]

theorem map_succ_range_pairs (a b : ℕ) (bs : List ℕ) (n : ℕ) (hn : n = bs.length) :
    (List.map Nat.succ (List.range n)).map (fun j => ((a : ℕ), (b :: bs).getD j 0)) =
      bs.map (fun y => ((a : ℕ), y)) := by
  subst hn
  rw [List.map_map]
  have h1 : ((fun j => ((a : ℕ), (b :: bs).getD j 0)) ∘ Nat.succ) =
      (fun j => ((a : ℕ), bs.getD j 0)) := by
    funext j
    simp [List.getD_cons_succ]
  rw [h1]
  have h2 : (fun j => ((a : ℕ), bs.getD j 0)) =
      ((fun y => ((a : ℕ), y)) ∘ (fun j => bs.getD j 0)) := rfl
  rw [h2, ← List.map_map, range_map_getD]

theorem crossPairs_eq_specUpperPairs :
    ∀ (s : List ℕ), crossPairs s s = specUpperPairs s := by
  have key : ∀ (as_ bs : List ℕ), as_.length = bs.length →
      crossPairs as_ bs =
        (List.range as_.length).flatMap
          (fun i => ((List.range as_.length).filter (fun j => decide (i ≤ j))).map
            (fun j => (as_.getD i 0, bs.getD j 0))) := by
    intro as_
    induction as_ with
    | nil => intro bs h; simp [crossPairs]
    | cons a as' ih =>
      intro bs h
      cases bs with
      | nil => simp at h
      | cons b bs' =>
        simp only [List.length_cons] at h
        have hlen : as'.length = bs'.length := Nat.succ_injective h
        simp only [crossPairs, List.length_cons, List.range_succ_eq_map, List.flatMap_cons,
          List.flatMap_map]
        congr 1
        · -- row i = 0: the filter keeps everything
          have hfil : (List.filter (fun j => decide (0 ≤ j))
              (0 :: List.map Nat.succ (List.range as'.length))) =
              0 :: List.map Nat.succ (List.range as'.length) := by
            apply List.filter_eq_self.mpr
            intro c _
            simp
          rw [hfil]
          simp only [List.map_cons, List.getD_cons_zero]
          exact congrArg ((a, b) :: ·) (map_succ_range_pairs a b bs' as'.length hlen).symm
        · -- remaining rows: shift indices down by one
          rw [ih bs' hlen]
          apply List.flatMap_congr
          intro i _
          have hfil : (List.filter (fun j => decide (i + 1 ≤ j))
              (0 :: List.map Nat.succ (List.range as'.length))) =
              List.map Nat.succ ((List.range as'.length).filter (fun j => decide (i ≤ j))) := by
            simp only [List.filter_cons]
            have h0 : (decide (i + 1 ≤ 0)) = false := by simp
            rw [h0]
            simp only [Bool.false_eq_true, if_false]
            rw [List.filter_map]
            congr 1
            apply List.filter_congr
            intro c _
            simp [Nat.succ_le_succ_iff]
          symm
          simp only [Nat.succ_eq_add_one, List.getD_cons_succ]
          rw [hfil, List.map_map]
          apply List.map_congr_left
          intro c _
          simp [List.getD_cons_succ]
  intro s
  exact key s s rfl

/-- C1.  For every `Raw` container on which `separate_pol_and_bl` succeeds,
the returned container carries exactly the four polarization labels
`xx`, `yy`, `xy`, `yx` in that order (raw_timestream.py line 265), and a
baseline-order dataset that is exactly the list of feed pairs
`(feedno[i], feedno[j])` for every `i ≤ j` over the sorted feed-number
list, in ascending `(i, j)` order (line 269). -/
theorem separate_pol_and_bl_pol_blorder (rt : Raw) (ts : TS) (h : separate rt = some ts) :
    ts.pol = ["xx", "yy", "xy", "yx"] ∧ ts.blorder = specUpperPairs (sortedFeedno rt) := by
  simp only [separate, Option.bind_eq_bind', Option.bind_eq_some] at h
  obtain ⟨xxl, hxx, yyl, hyy, xyl, hxy, yxl, hyx, hts⟩ := h
  rw [Option.some_inj] at hts
  subst hts
  exact ⟨rfl, crossPairs_eq_specUpperPairs _⟩

/-- A concrete raw container on which `separate_pol_and_bl` succeeds; the
`yx` channel pairs `(1,0)` and `(3,2)` are present only in reverse order in
`blorder`, so both lookup orientations are exercised. -/
def rt0 : Raw where
  feedno := [1, 2]
  channo := [(0, 1), (2, 3)]
  blorder := [(0, 0), (0, 2), (2, 2), (1, 1), (1, 3), (3, 3), (0, 1), (0, 3), (2, 3), (1, 2)]
  vis := fun t f b => ((b : ℤ), (t : ℤ) + (f : ℤ) + 1)
  vis_mask := fun t f b => decide ((t + f + b) % 2 = 0)

/-- The separated container produced from `rt0`. -/
def ts0 : TS :=
  (separate rt0).getD ⟨[], [], fun _ _ _ _ => (0, 0), fun _ _ _ _ => false⟩

theorem separate_pol_and_bl_pol_blorder_witness :
    ts0.pol = ["xx", "yy", "xy", "yx"] ∧ ts0.blorder = specUpperPairs (sortedFeedno rt0) :=
  separate_pol_and_bl_pol_blorder rt0 ts0 rfl

/-- C2.  For every `Raw` container on which separation succeeds, every
polarization slot `p` and every feed-pair position `k`, the separated main
data value at `(t, f, p, k)` equals the original visibility at `(t, f, b)`
— `b` the baseline index `_get_ind` resolves for the corresponding channel
pair — conjugated exactly when the pair was found only in reverse
orientation (lines 230-237); and the separated mask value at the same
position equals the original mask at `(t, f, b)` with the identical index
and no conjugation (lines 248-255). -/
theorem separate_pol_and_bl_gather (rt : Raw) (ts : TS) (t f p k : ℕ)
    (h : separate rt = some ts) (hp : p < 4) (hk : k < (polPairs rt p).length) :
    (getInd rt.blorder ((polPairs rt p).getD k (0, 0))).isSome = true ∧
    ts.vis t f p k = (if (resolvedInd rt p k).1 then cconj (rt.vis t f (resolvedInd rt p k).2)
      else rt.vis t f (resolvedInd rt p k).2) ∧
    ts.vis_mask t f p k = rt.vis_mask t f (resolvedInd rt p k).2 := by
  simp only [separate, Option.bind_eq_bind', Option.bind_eq_some] at h
  obtain ⟨xxl, hxx, yyl, hyy, xyl, hxy, yxl, hyx, hts⟩ := h
  rw [Option.some_inj] at hts
  subst hts
  interval_cases p
  · have hspec := (mapOpt_some_spec (0, 0) (false, 0) (getInd rt.blorder) _ _ hxx).2 k hk
    have e : resolvedInd rt 0 k = xxl.getD k (false, 0) := by
      unfold resolvedInd
      rw [hspec, Option.getD_some]
    refine ⟨by rw [hspec]; rfl, ?_, ?_⟩ <;> rw [e]
  · have hspec := (mapOpt_some_spec (0, 0) (false, 0) (getInd rt.blorder) _ _ hyy).2 k hk
    have e : resolvedInd rt 1 k = yyl.getD k (false, 0) := by
      unfold resolvedInd
      rw [hspec, Option.getD_some]
    refine ⟨by rw [hspec]; rfl, ?_, ?_⟩ <;> rw [e]
  · have hspec := (mapOpt_some_spec (0, 0) (false, 0) (getInd rt.blorder) _ _ hxy).2 k hk
    have e : resolvedInd rt 2 k = xyl.getD k (false, 0) := by
      unfold resolvedInd
      rw [hspec, Option.getD_some]
    refine ⟨by rw [hspec]; rfl, ?_, ?_⟩ <;> rw [e]
  · have hspec := (mapOpt_some_spec (0, 0) (false, 0) (getInd rt.blorder) _ _ hyx).2 k hk
    have e : resolvedInd rt 3 k = yxl.getD k (false, 0) := by
      unfold resolvedInd
      rw [hspec, Option.getD_some]
    refine ⟨by rw [hspec]; rfl, ?_, ?_⟩ <;> rw [e]

theorem separate_pol_and_bl_gather_witness :
    (3 < 4) ∧ (0 < (polPairs rt0 3).length) ∧
    ((getInd rt0.blorder ((polPairs rt0 3).getD 0 (0, 0))).isSome = true ∧
      ts0.vis 0 0 3 0 = (if (resolvedInd rt0 3 0).1 then cconj (rt0.vis 0 0 (resolvedInd rt0 3 0).2)
        else rt0.vis 0 0 (resolvedInd rt0 3 0).2) ∧
      ts0.vis_mask 0 0 3 0 = rt0.vis_mask 0 0 (resolvedInd rt0 3 0).2) :=
  ⟨by decide, by decide,
    separate_pol_and_bl_gather rt0 ts0 0 0 3 0 rfl (by decide) (by decide)⟩

/-! ## `feed_select` (raw_timestream.py lines 99-160)

`feed_select` builds the channel pairs of the selected feeds as Python
*sets* (`{ch1, ch3}` etc.), converts `blorder` to a list of sets, and
resolves each pair with `list.index` over those sets — an unordered match.
The selected baseline indices are the sorted set of resolved indices,
handed to `data_select`; no conjugation happens anywhere in `feed_select`. -/

/-- `np.intersect1d(feedno, value)`: sorted unique values present in both. -/
def intersect1d (a v : List ℕ) : List ℕ :=
  ((a.filter (fun x => v.contains x)).dedup).insertionSort (· ≤ ·)

/-- Correlation-type flag of `feed_select`. -/
inductive Corr
  | auto
  | cross
  | all
deriving DecidableEq

/-- `ch1, ch2 = channo[feedno.index(fd)]` (lines 134, 138-139, 143-144). -/
def chansOf (feedno : List ℕ) (channo : List (ℕ × ℕ)) (fd : ℕ) : ℕ × ℕ :=
  channo.getD ((index? feedno fd).getD 0) (0, 0)

/-- The three auto-correlation channel-pair sets `{ch1}, {ch2}, {ch1, ch2}`
of one feed (line 135). -/
def autoTriple (feedno : List ℕ) (channo : List (ℕ × ℕ)) (fd : ℕ) : List (Finset ℕ) :=
  let c := chansOf feedno channo fd
  [{c.1}, {c.2}, {c.1, c.2}]

/-- The four cross channel-pair sets `{ch1,ch3}, {ch1,ch4}, {ch2,ch3},
{ch2,ch4}` of a feed pair (lines 140, 145). -/
def pairs4 (feedno : List ℕ) (channo : List (ℕ × ℕ)) (fd1 fd2 : ℕ) : List (Finset ℕ) :=
  let c := chansOf feedno channo fd1
  let d := chansOf feedno channo fd2
  [{c.1, d.1}, {c.1, d.2}, {c.2, d.1}, {c.2, d.2}]

/-- `channel_pairs` of `feed_select` (lines 131-145). -/
def channelPairs (feedno : List ℕ) (channo : List (ℕ × ℕ)) (corr : Corr)
    (feeds : List ℕ) : List (Finset ℕ) :=
  match corr with
  | .auto => feeds.flatMap (autoTriple feedno channo)
  | .cross => (combs2 feeds).flatMap (fun p => pairs4 feedno channo p.1 p.2)
  | .all => (combsWR2 feeds).flatMap (fun p => pairs4 feedno channo p.1 p.2)

/-- `blorder = [ set(bl) for bl in blorder ]; blorder.index(chp)`
(lines 150-154): first index whose unordered channel pair equals `chp`;
`none` models the `ValueError` when the set is absent. -/
def indexSet? : List (ℕ × ℕ) → Finset ℕ → Option ℕ
  | [], _ => none
  | y :: ys, s =>
    if ({y.1, y.2} : Finset ℕ) = s then some 0 else (indexSet? ys s).map (· + 1)

/-- `indices = { blorder.index(chp) for chp in channel_pairs }` (line 154):
the set of resolved baseline indices, or `none` if any lookup raises. -/
def feedSelectSet (feedno : List ℕ) (channo : List (ℕ × ℕ)) (blorder : List (ℕ × ℕ))
    (value : List ℕ) (corr : Corr) : Option (Finset ℕ) :=
  let feeds := intersect1d feedno value
  let pairs := channelPairs feedno channo corr feeds
  if pairs.all (fun p => (indexSet? blorder p).isSome)
  then some (pairs.filterMap (indexSet? blorder)).toFinset
  else none

/-- `indices = sorted(list(indices))` (line 155): the sorted duplicate-free
list of resolved baseline indices. -/
def feedSelectIndices (feedno : List ℕ) (channo : List (ℕ × ℕ)) (blorder : List (ℕ × ℕ))
    (value : List ℕ) (corr : Corr) : Option (List ℕ) :=
  let pairs := channelPairs feedno channo corr (intersect1d feedno value)
  if pairs.all (fun p => (indexSet? blorder p).isSome)
  then some (((pairs.filterMap (indexSet? blorder)).dedup).insertionSort (· ≤ ·))
  else none

/-- Modelled from the spec: `self.data_select('baseline', indices)` lives in
the container base class (`container.py`, not among the sources); §4.2 says
the result "is applied as a baseline-axis index-set selection", i.e. a
gather of baseline columns with the values kept as stored.  `row` is one
(time, frequency) slice of the main data along the baseline axis. -/
def data_select (row : List (ℤ × ℤ)) (inds : List ℕ) : List (ℤ × ℤ) :=
  inds.map (fun i => row.getD i (0, 0))

/-- `feed_select` followed by `data_select` on one baseline row. -/
def feedSelectData (feedno : List ℕ) (channo : List (ℕ × ℕ)) (blorder : List (ℕ × ℕ))
    (value : List ℕ) (corr : Corr) (row : List (ℤ × ℤ)) : Option (List (ℤ × ℤ)) :=
  (feedSelectIndices feedno channo blorder value corr).map (data_select row)

/-- The ordered (tuple, not set) channel pairs in the orientation
`feed_select` builds them from the feed→channel map — the "forward
orientation" of the claim. -/
def orderedChannelPairs (feedno : List ℕ) (channo : List (ℕ × ℕ)) (corr : Corr)
    (feeds : List ℕ) : List (ℕ × ℕ) :=
  match corr with
  | .auto => feeds.flatMap (fun fd =>
      let c := chansOf feedno channo fd
      [(c.1, c.1), (c.2, c.2), (c.1, c.2)])
  | .cross => (combs2 feeds).flatMap (fun p =>
      let c := chansOf feedno channo p.1
      let d := chansOf feedno channo p.2
      [(c.1, d.1), (c.1, d.2), (c.2, d.1), (c.2, d.2)])
  | .all => (combsWR2 feeds).flatMap (fun p =>
      let c := chansOf feedno channo p.1
      let d := chansOf feedno channo p.2
      [(c.1, d.1), (c.1, d.2), (c.2, d.1), (c.2, d.2)])

/-- Stated from the spec's words (§4.2), for comparison with the
source-derived `feedSelectData`: each channel pair is looked up in forward
orientation first; "if the pair is absent in forward order, its reverse is
looked up and the retrieved column is conjugated before use".  The sorted
unique resolved indices are applied as the selection, with the columns of
reverse-resolved pairs conjugated. -/
def claimedFeedSelectData (feedno : List ℕ) (channo : List (ℕ × ℕ))
    (blorder : List (ℕ × ℕ)) (value : List ℕ) (corr : Corr)
    (row : List (ℤ × ℤ)) : Option (List (ℤ × ℤ)) :=
  let pairs := orderedChannelPairs feedno channo corr (intersect1d feedno value)
  (mapOpt (getInd blorder) pairs).map (fun resolved =>
    let inds := ((resolved.map Prod.snd).dedup).insertionSort (· ≤ ·)
    inds.map (fun i =>
      if resolved.contains (true, i) then cconj (row.getD i (0, 0)) else row.getD i (0, 0)))

theorem getD_map {α β : Type} (f : α → β) (l : List α) (i : ℕ) (d : α) :
    (l.map f).getD i (f d) = f (l.getD i d) := by
  simp only [List.getD_eq_getElem?_getD, List.getElem?_map]
  cases l[i]? <;> simp

theorem indexSet?_isSome_iff (bl : List (ℕ × ℕ)) (s : Finset ℕ) :
    (indexSet? bl s).isSome = true ↔ s ∈ bl.map (fun b => ({b.1, b.2} : Finset ℕ)) := by
  induction bl with
  | nil => simp [indexSet?]
  | cons y ys ih =>
    by_cases hys : ({y.1, y.2} : Finset ℕ) = s
    · simp [indexSet?, hys]
    · simp [indexSet?, hys, Option.isSome_map, ih, Ne.symm hys]

/-- C3, counterexample.  The claim asserts that feed selection, too, looks
channel pairs up forward-first and conjugates columns found only in reverse
orientation.  The source's `feed_select` (lines 149-157) matches pairs as
unordered sets and applies the index selection with no conjugation: on a
baseline order holding every pair reversed, the code returns the columns
unchanged while the claimed behaviour conjugates all of them. -/
theorem feed_select_conjugation_counterexample :
    feedSelectData [1, 2] [(0, 1), (2, 3)] [(2, 0), (3, 0), (2, 1), (3, 1)] [1, 2] Corr.cross
        [(5, 7), (5, 7), (5, 7), (5, 7)] =
      some [(5, 7), (5, 7), (5, 7), (5, 7)] ∧
    claimedFeedSelectData [1, 2] [(0, 1), (2, 3)] [(2, 0), (3, 0), (2, 1), (3, 1)] [1, 2]
        Corr.cross [(5, 7), (5, 7), (5, 7), (5, 7)] =
      some [(5, -7), (5, -7), (5, -7), (5, -7)] ∧
    ((some [(5, 7), (5, 7), (5, 7), (5, 7)] : Option (List (ℤ × ℤ))) ≠
      some [(5, -7), (5, -7), (5, -7), (5, -7)]) := by
  refine ⟨by decide, by decide, by decide⟩

/-- C3, amended.  In pol/baseline separation, `_get_ind` looks every channel
pair up in forward orientation first; if absent, its reverse is looked up
and the conjugation flag is set; the lookup fails (`PairNotFound` /
`ValueError`) when neither orientation exists.  In feed selection, channel
pairs are matched against the baseline order as unordered sets — with no
orientation distinction and no conjugation — and the selection fails
exactly when some unordered pair is absent; the selected columns are the
original data, unconjugated. -/
theorem pair_lookup_amended :
    (∀ (bl : List (ℕ × ℕ)) (chp : ℕ × ℕ) (i : ℕ), index? bl chp = some i →
      getInd bl chp = some (false, i) ∧ i < bl.length ∧ bl.getD i (0, 0) = chp) ∧
    (∀ (bl : List (ℕ × ℕ)) (chp : ℕ × ℕ) (i : ℕ), chp ∉ bl →
      index? (bl.map Prod.swap) chp = some i →
      getInd bl chp = some (true, i) ∧ i < bl.length ∧ bl.getD i (0, 0) = Prod.swap chp) ∧
    (∀ (bl : List (ℕ × ℕ)) (chp : ℕ × ℕ), chp ∉ bl → Prod.swap chp ∉ bl →
      getInd bl chp = none) ∧
    (∀ (l : List (ℕ × ℕ)) (x : ℕ × ℕ), (index? l x).isSome = true ↔ x ∈ l) ∧
    (∀ (bl : List (ℕ × ℕ)) (s : Finset ℕ), (indexSet? bl s).isSome = true ↔
      s ∈ bl.map (fun b => ({b.1, b.2} : Finset ℕ))) ∧
    (∀ (fn : List ℕ) (cn : List (ℕ × ℕ)) (bl : List (ℕ × ℕ)) (val : List ℕ) (corr : Corr)
      (row : List (ℤ × ℤ)) (inds : List ℕ), feedSelectIndices fn cn bl val corr = some inds →
      feedSelectData fn cn bl val corr row = some (inds.map (fun i => row.getD i (0, 0)))) := by
  refine ⟨?_, ?_, ?_, ?_, ?_, ?_⟩
  · intro bl chp i h
    have hs := index?_some_spec (0, 0) bl chp i h
    unfold getInd
    rw [h]
    exact ⟨rfl, hs.1, hs.2⟩
  · intro bl chp i hmem h
    have hn : index? bl chp = none := (index?_eq_none_iff bl chp).mpr hmem
    have hs := index?_some_spec (0, 0) (bl.map Prod.swap) chp i h
    have hlen : i < bl.length := by simpa using hs.1
    have hget : Prod.swap (bl.getD i (0, 0)) = chp := by
      have := hs.2
      rwa [show ((0, 0) : ℕ × ℕ) = Prod.swap ((0, 0) : ℕ × ℕ) from rfl,
        getD_map Prod.swap bl i ((0, 0) : ℕ × ℕ)] at this
    refine ⟨?_, hlen, ?_⟩
    · unfold getInd
      rw [hn, h]
    · rw [← hget, Prod.swap_swap]
  · intro bl chp h1 h2
    have hn1 : index? bl chp = none := (index?_eq_none_iff bl chp).mpr h1
    have hn2 : index? (bl.map Prod.swap) chp = none := by
      rw [index?_eq_none_iff]
      intro hc
      obtain ⟨y, hy, hyc⟩ := List.mem_map.mp hc
      exact h2 (by rw [← hyc, Prod.swap_swap]; exact hy)
    unfold getInd
    rw [hn1, hn2]
  · exact fun l x => index?_isSome_iff l x
  · exact fun bl s => indexSet?_isSome_iff bl s
  · intro fn cn bl val corr row inds h
    unfold feedSelectData
    rw [h]
    rfl

theorem pair_lookup_amended_witness :
    (index? [((1 : ℕ), (2 : ℕ)), (3, 4)] (3, 4) = some 1 ∧
      (getInd [((1 : ℕ), (2 : ℕ)), (3, 4)] (3, 4) = some (false, 1) ∧
        1 < ([((1 : ℕ), (2 : ℕ)), (3, 4)]).length ∧
        ([((1 : ℕ), (2 : ℕ)), (3, 4)]).getD 1 (0, 0) = (3, 4))) ∧
    (((2 : ℕ), (1 : ℕ)) ∉ [((1 : ℕ), (2 : ℕ))] ∧
      index? ([((1 : ℕ), (2 : ℕ))].map Prod.swap) (2, 1) = some 0 ∧
      (getInd [((1 : ℕ), (2 : ℕ))] (2, 1) = some (true, 0) ∧
        0 < ([((1 : ℕ), (2 : ℕ))]).length ∧
        ([((1 : ℕ), (2 : ℕ))]).getD 0 (0, 0) = Prod.swap (2, 1))) ∧
    (getInd [((1 : ℕ), (2 : ℕ))] (5, 6) = none) ∧
    (feedSelectIndices [1, 2] [(0, 1), (2, 3)] [(0, 2), (0, 3), (1, 2), (1, 3)] [1, 2]
        Corr.cross = some [0, 1, 2, 3] ∧
      feedSelectData [1, 2] [(0, 1), (2, 3)] [(0, 2), (0, 3), (1, 2), (1, 3)] [1, 2]
        Corr.cross [(8, 9), (10, 11), (12, 13), (14, 15)] =
        some ([0, 1, 2, 3].map (fun i =>
          ([((8 : ℤ), (9 : ℤ)), (10, 11), (12, 13), (14, 15)]).getD i (0, 0)))) :=
  ⟨⟨by decide, pair_lookup_amended.1 _ _ _ (by decide)⟩,
   ⟨by decide, by decide, pair_lookup_amended.2.1 _ _ _ (by decide) (by decide)⟩,
   pair_lookup_amended.2.2.1 _ _ (by decide) (by decide),
   ⟨by decide, pair_lookup_amended.2.2.2.2.2 _ _ _ _ _ _ _ (by decide)⟩⟩

/-- C4, counterexample.  In the spec's concrete scenario (feeds `[1,2,3]`,
channel map `{1:(0,1), 2:(2,3), 3:(4,5)}`, the representative baseline
order), the channel pair `(1,2)` is present only as `(2,1)`.  The claim
requires its column to be conjugated; `feed_select` matches it as the
unordered set `{1,2}` and returns the column unconjugated. -/
theorem feed_select_cross_scenario_counterexample :
    feedSelectData [1, 2, 3] [(0, 1), (2, 3), (4, 5)]
        [(0, 0), (0, 2), (0, 4), (2, 2), (2, 4), (4, 4), (1, 1), (1, 3), (1, 5), (3, 3),
          (3, 5), (5, 5), (0, 1), (0, 3), (0, 5), (2, 1), (2, 3)] [1, 2] Corr.cross
        [(1, 0), (1, 0), (1, 0), (1, 0), (1, 0), (1, 0), (1, 0), (1, 0), (1, 0), (1, 0),
          (1, 0), (1, 0), (1, 0), (1, 0), (1, 0), (2, 3), (1, 0)] =
      some [(1, 0), (1, 0), (1, 0), (2, 3)] ∧
    claimedFeedSelectData [1, 2, 3] [(0, 1), (2, 3), (4, 5)]
        [(0, 0), (0, 2), (0, 4), (2, 2), (2, 4), (4, 4), (1, 1), (1, 3), (1, 5), (3, 3),
          (3, 5), (5, 5), (0, 1), (0, 3), (0, 5), (2, 1), (2, 3)] [1, 2] Corr.cross
        [(1, 0), (1, 0), (1, 0), (1, 0), (1, 0), (1, 0), (1, 0), (1, 0), (1, 0), (1, 0),
          (1, 0), (1, 0), (1, 0), (1, 0), (1, 0), (2, 3), (1, 0)] =
      some [(1, 0), (1, 0), (1, 0), (2, -3)] ∧
    ((some [(1, 0), (1, 0), (1, 0), (2, 3)] : Option (List (ℤ × ℤ))) ≠
      some [(1, 0), (1, 0), (1, 0), (2, -3)]) := by
  refine ⟨by decide, by decide, by decide⟩

/-- C4, amended.  With feed numbers `[1,2,3]`, feed→channel map
`{1:(0,1), 2:(2,3), 3:(4,5)}` and a baseline order containing the required
channel pairs in either orientation, `feed_select([1,2], corr='cross')`
resolves to exactly the four unordered channel pairs `{0,2}, {0,3}, {1,2},
{1,3}` and applies exactly their baseline indices (sorted, without
duplicates) as the baseline-axis selection; no conjugation is applied —
pairs present only in reverse order are matched as unordered sets and their
columns used as stored. -/
theorem feed_select_cross_scenario_amended (bl : List (ℕ × ℕ)) (row : List (ℤ × ℤ))
    (i1 i2 i3 i4 : ℕ)
    (h1 : indexSet? bl {0, 2} = some i1) (h2 : indexSet? bl {0, 3} = some i2)
    (h3 : indexSet? bl {1, 2} = some i3) (h4 : indexSet? bl {1, 3} = some i4) :
    channelPairs [1, 2, 3] [(0, 1), (2, 3), (4, 5)] Corr.cross (intersect1d [1, 2, 3] [1, 2]) =
      [{0, 2}, {0, 3}, {1, 2}, {1, 3}] ∧
    feedSelectIndices [1, 2, 3] [(0, 1), (2, 3), (4, 5)] bl [1, 2] Corr.cross =
      some (([i1, i2, i3, i4].dedup).insertionSort (· ≤ ·)) ∧
    feedSelectData [1, 2, 3] [(0, 1), (2, 3), (4, 5)] bl [1, 2] Corr.cross row =
      some ((([i1, i2, i3, i4].dedup).insertionSort (· ≤ ·)).map
        (fun i => row.getD i (0, 0))) := by
  have hpairs : channelPairs [1, 2, 3] [(0, 1), (2, 3), (4, 5)] Corr.cross
      (intersect1d [1, 2, 3] [1, 2]) = [{0, 2}, {0, 3}, {1, 2}, {1, 3}] := by decide
  have hinds : feedSelectIndices [1, 2, 3] [(0, 1), (2, 3), (4, 5)] bl [1, 2] Corr.cross =
      some (([i1, i2, i3, i4].dedup).insertionSort (· ≤ ·)) := by
    unfold feedSelectIndices
    rw [hpairs]
    have hall : ([{0, 2}, {0, 3}, {1, 2}, {1, 3}] :
        List (Finset ℕ)).all (fun p => (indexSet? bl p).isSome) = true := by
      simp [h1, h2, h3, h4]
    rw [if_pos hall]
    simp [List.filterMap_cons, h1, h2, h3, h4]
  refine ⟨hpairs, hinds, ?_⟩
  unfold feedSelectData
  rw [hinds]
  rfl

theorem feed_select_cross_scenario_amended_witness :
    (indexSet? [(0, 2), (3, 0), (2, 1), (1, 3)] {0, 2} = some 0 ∧
      indexSet? [(0, 2), (3, 0), (2, 1), (1, 3)] {0, 3} = some 1 ∧
      indexSet? [(0, 2), (3, 0), (2, 1), (1, 3)] {1, 2} = some 2 ∧
      indexSet? [(0, 2), (3, 0), (2, 1), (1, 3)] {1, 3} = some 3) ∧
    (channelPairs [1, 2, 3] [(0, 1), (2, 3), (4, 5)] Corr.cross
        (intersect1d [1, 2, 3] [1, 2]) = [{0, 2}, {0, 3}, {1, 2}, {1, 3}] ∧
      feedSelectIndices [1, 2, 3] [(0, 1), (2, 3), (4, 5)] [(0, 2), (3, 0), (2, 1), (1, 3)]
        [1, 2] Corr.cross = some (([0, 1, 2, 3].dedup).insertionSort (· ≤ ·)) ∧
      feedSelectData [1, 2, 3] [(0, 1), (2, 3), (4, 5)] [(0, 2), (3, 0), (2, 1), (1, 3)]
        [1, 2] Corr.cross [(1, 2), (3, 4), (5, 6), (7, 8)] =
        some ((([0, 1, 2, 3].dedup).insertionSort (· ≤ ·)).map
          (fun i => ([((1 : ℤ), (2 : ℤ)), (3, 4), (5, 6), (7, 8)]).getD i (0, 0)))) :=
  ⟨⟨by decide, by decide, by decide, by decide⟩,
    feed_select_cross_scenario_amended [(0, 2), (3, 0), (2, 1), (1, 3)]
      [(1, 2), (3, 4), (5, 6), (7, 8)] 0 1 2 3 (by decide) (by decide) (by decide) (by decide)⟩

theorem mem_pairs4_diag (fn : List ℕ) (cn : List (ℕ × ℕ)) (fd : ℕ) (p : Finset ℕ) :
    p ∈ pairs4 fn cn fd fd ↔ p ∈ autoTriple fn cn fd := by
  simp only [pairs4, autoTriple, List.mem_cons, List.mem_singleton, List.not_mem_nil, or_false]
  have h1 : ({(chansOf fn cn fd).1, (chansOf fn cn fd).1} : Finset ℕ) =
      {(chansOf fn cn fd).1} := Finset.pair_eq_singleton _
  have h2 : ({(chansOf fn cn fd).2, (chansOf fn cn fd).2} : Finset ℕ) =
      {(chansOf fn cn fd).2} := Finset.pair_eq_singleton _
  have h3 : ({(chansOf fn cn fd).2, (chansOf fn cn fd).1} : Finset ℕ) =
      {(chansOf fn cn fd).1, (chansOf fn cn fd).2} := Finset.pair_comm _ _
  rw [h1, h2, h3]
  tauto

theorem mem_channelPairs_all_iff (fn : List ℕ) (cn : List (ℕ × ℕ)) (p : Finset ℕ) :
    ∀ (fs : List ℕ), p ∈ channelPairs fn cn Corr.all fs ↔
      p ∈ channelPairs fn cn Corr.auto fs ∨ p ∈ channelPairs fn cn Corr.cross fs := by
  intro fs
  induction fs with
  | nil => simp [channelPairs, combsWR2, combs2]
  | cons x xs ih =>
    simp only [channelPairs, combsWR2, combs2, List.flatMap_cons, List.flatMap_append,
      List.mem_append] at ih ⊢
    have hd := mem_pairs4_diag fn cn x p
    tauto

theorem toFinset_filterMap_of_mem_iff (f : Finset ℕ → Option ℕ)
    (l l2 l3 : List (Finset ℕ)) (h : ∀ p, p ∈ l ↔ p ∈ l2 ∨ p ∈ l3) :
    (l.filterMap f).toFinset = (l2.filterMap f).toFinset ∪ (l3.filterMap f).toFinset := by
  ext a
  simp only [List.mem_toFinset, List.mem_filterMap, Finset.mem_union]
  constructor
  · rintro ⟨p, hp, hf⟩
    rcases (h p).mp hp with h2 | h3
    · exact Or.inl ⟨p, h2, hf⟩
    · exact Or.inr ⟨p, h3, hf⟩
  · rintro (⟨p, hp, hf⟩ | ⟨p, hp, hf⟩)
    · exact ⟨p, (h p).mpr (Or.inl hp), hf⟩
    · exact ⟨p, (h p).mpr (Or.inr hp), hf⟩

/-- C5.  For every feed set, feed→channel map and baseline order on which
the `auto` and `cross` selections succeed, the baseline-index set selected
by `feed_select(F, corr='all')` is exactly the union of the `auto` and
`cross` index sets, and the applied index list holds no duplicates. -/
theorem feed_select_all_union_auto_cross (fn : List ℕ) (cn : List (ℕ × ℕ))
    (bl : List (ℕ × ℕ)) (val : List ℕ) (A C : Finset ℕ) (L : List ℕ)
    (hA : feedSelectSet fn cn bl val Corr.auto = some A)
    (hC : feedSelectSet fn cn bl val Corr.cross = some C)
    (hL : feedSelectIndices fn cn bl val Corr.all = some L) :
    feedSelectSet fn cn bl val Corr.all = some (A ∪ C) ∧ L.Nodup := by
  unfold feedSelectSet at hA hC ⊢
  by_cases h2 : ((channelPairs fn cn Corr.auto (intersect1d fn val)).all
      (fun p => (indexSet? bl p).isSome)) = true
  swap
  · rw [if_neg h2] at hA
    exact absurd hA (by simp)
  by_cases h3 : ((channelPairs fn cn Corr.cross (intersect1d fn val)).all
      (fun p => (indexSet? bl p).isSome)) = true
  swap
  · rw [if_neg h3] at hC
    exact absurd hC (by simp)
  rw [if_pos h2] at hA
  rw [if_pos h3] at hC
  have hmem := fun p => mem_channelPairs_all_iff fn cn p (intersect1d fn val)
  have h1 : ((channelPairs fn cn Corr.all (intersect1d fn val)).all
      (fun p => (indexSet? bl p).isSome)) = true := by
    rw [List.all_eq_true] at h2 h3 ⊢
    intro p hp
    rcases (hmem p).mp hp with h | h
    · exact h2 p h
    · exact h3 p h
  refine ⟨?_, ?_⟩
  · rw [if_pos h1, Option.some_inj]
    rw [Option.some_inj] at hA hC
    rw [← hA, ← hC]
    exact toFinset_filterMap_of_mem_iff _ _ _ _ hmem
  · unfold feedSelectIndices at hL
    rw [if_pos h1, Option.some_inj] at hL
    rw [← hL]
    exact (List.perm_insertionSort _ _).nodup_iff.mpr (List.nodup_dedup _)

theorem feed_select_all_union_auto_cross_witness :
    (feedSelectSet [1, 2] [(0, 1), (2, 3)]
        [(0, 0), (1, 1), (0, 1), (2, 2), (3, 3), (2, 3), (0, 2), (0, 3), (1, 2), (1, 3)]
        [1, 2] Corr.auto = some {0, 1, 2, 3, 4, 5} ∧
      feedSelectSet [1, 2] [(0, 1), (2, 3)]
        [(0, 0), (1, 1), (0, 1), (2, 2), (3, 3), (2, 3), (0, 2), (0, 3), (1, 2), (1, 3)]
        [1, 2] Corr.cross = some {6, 7, 8, 9} ∧
      feedSelectIndices [1, 2] [(0, 1), (2, 3)]
        [(0, 0), (1, 1), (0, 1), (2, 2), (3, 3), (2, 3), (0, 2), (0, 3), (1, 2), (1, 3)]
        [1, 2] Corr.all = some [0, 1, 2, 3, 4, 5, 6, 7, 8, 9]) ∧
    (feedSelectSet [1, 2] [(0, 1), (2, 3)]
        [(0, 0), (1, 1), (0, 1), (2, 2), (3, 3), (2, 3), (0, 2), (0, 3), (1, 2), (1, 3)]
        [1, 2] Corr.all = some (({0, 1, 2, 3, 4, 5} : Finset ℕ) ∪ {6, 7, 8, 9}) ∧
      ([0, 1, 2, 3, 4, 5, 6, 7, 8, 9] : List ℕ).Nodup) :=
  ⟨⟨by decide, by decide, by decide⟩,
    feed_select_all_union_auto_cross [1, 2] [(0, 1), (2, 3)]
      [(0, 0), (1, 1), (0, 1), (2, 2), (3, 3), (2, 3), (0, 2), (0, 3), (1, 2), (1, 3)]
      [1, 2] _ _ _ (by decide) (by decide) (by decide)⟩

/-! ## Frequency-axis flagging (`tlpipe/timestream/freq_flag.py`)

`Flag.flag` receives one frequency column of `vis` and `vis_mask` per
(time, baseline) pair.  The column data is modelled over `ℚ` (exact
arithmetic); `np.abs` is `|·|` and the threshold test
`np.abs(vis_abs - mean) > sigma*std` is expressed in the equivalent squared
form `(|x| - mean)² > sigma²·var` (both sides are non-negative and
`std = √var`, so the two tests agree for the non-negative `sigma`
parameter), which keeps every definition executable. -/

/-- The valid (unmasked) magnitudes of one frequency column:
`np.abs(np.ma.array(vis, mask=vis_mask))` compressed to unmasked entries. -/
def validAbs (vis : List ℚ) (mask : List Bool) : List ℚ :=
  (vis.zip mask).filterMap (fun p => if p.2 then none else some |p.1|)

/-- The mask written back by `Flag.flag`: `vis_mask[inds] = True` where
`inds` are the valid entries whose magnitude fails the threshold test
(freq_flag.py lines 64-65).  The test `np.abs(vis_abs - mean) > sigma*std`
is written in the equivalent squared form `(|x| - mean)² > sigma²·var`. -/
def flaggedMask (sigma mean varq : ℚ) (vis : List ℚ) (mask : List Bool) : List Bool :=
  (List.range mask.length).map (fun i =>
    mask.getD i false ||
      (!(mask.getD i false) && decide (sigma ^ 2 * varq < (|vis.getD i 0| - mean) ^ 2)))

/-- `Flag.flag` (freq_flag.py lines 54-65): when at least `freq_points`
valid samples exist, mask every valid sample whose magnitude deviates from
the mean of the valid magnitudes by more than `sigma` standard deviations
(`np.ma.std`, population variance); otherwise leave the column untouched.
Masked entries are excluded from `inds` (`np.where` on a masked comparison
uses `MaskedArray.nonzero`, which ignores masked entries); only the mask is
written, never `vis`. -/
def flagColumn (sigma : ℚ) (freq_points : ℕ) (vis : List ℚ) (mask : List Bool) : List Bool :=
  if freq_points ≤ (validAbs vis mask).length then
    flaggedMask sigma
      ((validAbs vis mask).sum / ((validAbs vis mask).length : ℚ))
      (((validAbs vis mask).map
          (fun x => (x - (validAbs vis mask).sum / ((validAbs vis mask).length : ℚ)) ^ 2)).sum /
        ((validAbs vis mask).length : ℚ))
      vis mask
  else mask

/-- The flagging stage's view of a container: the global frequency-axis
length, and one (vis, mask) frequency column per (time, baseline) — or
(time, polarization, baseline) — index. -/
structure FlagTS where
  nfreq : ℕ
  cols : List (List ℚ × List Bool)
deriving DecidableEq

/-- `Flag.process` (freq_flag.py lines 34-52): if the global frequency
length reaches `freq_points`, apply `Flag.flag` to every column (the
`redistribute('time')` call only repartitions and is value-preserving);
otherwise skip the stage entirely and surface `warnings.warn` (the returned
`Bool`, `true` when the warning fired). -/
def flagProcess (sigma : ℚ) (freq_points : ℕ) (ts : FlagTS) : FlagTS × Bool :=
  if freq_points ≤ ts.nfreq then
    ({ ts with cols := ts.cols.map (fun c => (c.1, flagColumn sigma freq_points c.1 c.2)) },
      false)
  else (ts, true)

theorem bool_le_or_left (b x : Bool) : b ≤ (b || x) := by
  cases b <;> cases x <;> decide

theorem flaggedMask_monotone (sigma mean varq : ℚ) (vis : List ℚ) (mask : List Bool) (i : ℕ) :
    mask.getD i false ≤ (flaggedMask sigma mean varq vis mask).getD i false := by
  unfold flaggedMask
  by_cases hi : i < mask.length
  · rw [List.getD_eq_getElem?_getD ((List.range mask.length).map _) i false,
      List.getElem?_map, List.getElem?_range hi]
    exact bool_le_or_left _ _
  · rw [List.getD_eq_getElem?_getD mask i false, List.getElem?_eq_none (Nat.le_of_not_lt hi)]
    exact Bool.false_le _

theorem flagColumn_monotone (sigma : ℚ) (fp : ℕ) (vis : List ℚ) (mask : List Bool) (i : ℕ) :
    mask.getD i false ≤ (flagColumn sigma fp vis mask).getD i false := by
  unfold flagColumn
  by_cases hc : fp ≤ (validAbs vis mask).length
  · rw [if_pos hc]
    exact flaggedMask_monotone _ _ _ _ _ _
  · rw [if_neg hc]

/-- C6.  For every container processed by the flagging stage, every mask
entry after the stage is ≥ its value before (`false` may become `true`,
never the reverse), and every visibility value is unchanged. -/
theorem flag_mask_monotone_vis_unchanged (sigma : ℚ) (fp : ℕ) (ts : FlagTS) (k i : ℕ) :
    ((flagProcess sigma fp ts).1.cols.getD k ([], [])).1 = (ts.cols.getD k ([], [])).1 ∧
    (ts.cols.getD k ([], [])).2.getD i false ≤
      ((flagProcess sigma fp ts).1.cols.getD k ([], [])).2.getD i false := by
  unfold flagProcess
  by_cases hc : fp ≤ ts.nfreq
  · rw [if_pos hc]
    simp only [List.getD_eq_getElem?_getD, List.getElem?_map]
    cases hk : ts.cols[k]? with
    | none => exact ⟨rfl, le_refl _⟩
    | some c =>
      simp only [Option.map_some, Option.getD_some]
      exact ⟨rfl, by
        simpa [List.getD_eq_getElem?_getD] using flagColumn_monotone sigma fp c.1 c.2 i⟩
  · rw [if_neg hc]
    exact ⟨rfl, le_refl _⟩

/-- C7.  If the container's global frequency length is below `freq_points`,
the stage performs no flagging at all (the container is returned unchanged)
and surfaces a non-fatal warning; and every column with fewer valid
(unmasked) samples than `freq_points` is left untouched by `Flag.flag`. -/
theorem flag_skip_insufficient_freq (sigma : ℚ) (fp : ℕ) (ts : FlagTS)
    (vis : List ℚ) (mask : List Bool) :
    (ts.nfreq < fp → flagProcess sigma fp ts = (ts, true)) ∧
    ((validAbs vis mask).length < fp → flagColumn sigma fp vis mask = mask) := by
  constructor
  · intro h
    unfold flagProcess
    rw [if_neg (Nat.not_le_of_lt h)]
  · intro h
    unfold flagColumn
    rw [if_neg (Nat.not_le_of_lt h)]

/-- The spec's scenario: global frequency length 5 with `freq_points = 10`
— the stage is skipped, the mask is unmodified, a warning is recorded; and
a column with 1 valid sample is untouched by `Flag.flag`. -/
theorem flag_skip_insufficient_freq_witness :
    ((5 : ℕ) < 10 ∧
      flagProcess 3 10 ⟨5, [([1, 2, 3, 4, 5], [false, false, false, false, false])]⟩ =
        (⟨5, [([1, 2, 3, 4, 5], [false, false, false, false, false])]⟩, true)) ∧
    ((validAbs [1, 2] [false, true]).length < 10 ∧
      flagColumn 3 10 [1, 2] [false, true] = [false, true]) :=
  ⟨⟨by decide,
      (flag_skip_insufficient_freq 3 10
        ⟨5, [([1, 2, 3, 4, 5], [false, false, false, false, false])]⟩ [] []).1 (by decide)⟩,
    ⟨by decide,
      (flag_skip_insufficient_freq 3 10 ⟨5, []⟩ [1, 2] [false, true]).2 (by decide)⟩⟩

/-! ## Distribution-axis effect of `separate_pol_and_bl`
(raw_timestream.py lines 186-190 and 318-320) -/

/-- Modelled from the spec: `redistribute(axis)` lives in the container base
class (`container.py`, not among the sources); §4.1 says it repartitions so
that the main dataset's distribution axis becomes `axis`.  Only the axis
index is tracked here. -/
def redistribute (_distAxis : ℕ) (axis : ℕ) : ℕ := axis

/-- `_main_data_axes_ = ('time', 'frequency', 'baseline')` (line 33). -/
def mainDataAxes : List String := ["time", "frequency", "baseline"]

/-- The source container's distribution axis after `separate_pol_and_bl`:
lines 186-190 — if the dist axis is the baseline axis the flag is forced to
`False` ("can not keep dist axis in this case") and data is redistributed
along time — and lines 318-320 — redistribute back only if the (possibly
overridden) flag is still set. -/
def sepSourceDistAxis (originalDistAxis : ℕ) (keepDistAxis : Bool) : ℕ :=
  let keep := if mainDataAxes.getD originalDistAxis "" = "baseline" then false else keepDistAxis
  let cur := if mainDataAxes.getD originalDistAxis "" = "baseline"
    then redistribute originalDistAxis 0 else originalDistAxis
  if keep then redistribute cur originalDistAxis else cur

/-- C8, counterexample.  With the source container distributed along the
baseline axis (axis 2) and `keep_dist_axis=True`, the code sets
`keep_dist_axis = False` and leaves the source distributed along the time
axis (axis 0): the distribution axis after the call differs from the one
before, contradicting the claim. -/
theorem keep_dist_axis_baseline_counterexample :
    sepSourceDistAxis 2 true = 0 ∧ (0 : ℕ) ≠ 2 := by
  refine ⟨by decide, by decide⟩

/-- C8, amended.  If `separate_pol_and_bl` is called with
`keep_dist_axis=True` and the original distribution axis is not the
baseline axis, the source container's distribution axis after the call
equals its axis before the call (nothing is ever redistributed in that
case).  If the original axis is the baseline axis, the flag is overridden
and the source is left distributed along the time axis (axis 0), for any
requested flag value. -/
theorem sep_dist_axis_amended (orig : ℕ) (keep : Bool)
    (h : mainDataAxes.getD orig "" ≠ "baseline") :
    sepSourceDistAxis orig true = orig ∧ sepSourceDistAxis 2 keep = 0 := by
  constructor
  · unfold sepSourceDistAxis
    rw [if_neg h, if_neg h]
    rfl
  · cases keep <;> decide

theorem sep_dist_axis_amended_witness :
    (mainDataAxes.getD 0 "" ≠ "baseline") ∧
    (sepSourceDistAxis 0 true = 0 ∧ sepSourceDistAxis 2 false = 0) :=
  ⟨by decide, sep_dist_axis_amended 0 false (by decide)⟩

/-! ## Multiscale transforms (`tlpipe/utils/multiscale.py`)

One-dimensional arrays over `ℚ` (exact arithmetic).  `scipy`'s boundary
mode `'reflect'` — `(d c b a | a b c d | d c b a)` — is modelled by index
reflection on an index of type `ℤ`.  In every one of
`starlet_transform`, `multiscale_median_transform` and
`median_wavelet_transform`, the `level == None` branch evaluates
`input_image.shape` where the name `input_image` is bound nowhere in the
module (not a parameter, not a global), so Python raises `NameError` before
any computation; the branch is therefore translated as an error value. -/

/-- Reflect an integer index into `[0, n)` with period `2n`
(scipy boundary mode `'reflect'`). -/
def reflectIdx (n : ℕ) (i : ℤ) : ℕ :=
  if n = 0 then 0
  else
    let m := (i % (2 * (n : ℤ))).toNat
    if m < n then m else 2 * n - 1 - m

/-- Array access with reflected boundary. -/
def reflectGet (a : List ℚ) (i : ℤ) : ℚ := a.getD (reflectIdx a.length i) 0

/-- `convolve` (multiscale.py lines 24-28) on a one-dimensional array:
`scipy.ndimage.convolve1d(a, phi, mode='reflect')`, centred on the middle
of the (odd, symmetric) kernel. -/
def convolve (a : List ℚ) (w : List ℚ) : List ℚ :=
  (List.range a.length).map (fun (j : ℕ) =>
    ((List.range w.length).map (fun (k : ℕ) =>
      w.getD k 0 * reflectGet a ((j : ℤ) + (k : ℤ) - ((w.length / 2 : ℕ) : ℤ)))).sum)

/-- Pointwise difference of two arrays (`a - approx`). -/
def listSub (a b : List ℚ) : List ℚ := List.zipWith (fun x y => x - y) a b

/-- Pointwise sum of two arrays (`approx += w`). -/
def listAdd (a b : List ℚ) : List ℚ := List.zipWith (fun x y => x + y) a b

/-- `up_sampling` (lines 14-21): interleave with zeros, length `2k-1`. -/
def up_sampling : List ℚ → List ℚ
  | [] => []
  | [x] => [x]
  | x :: y :: xs => x :: 0 :: up_sampling (y :: xs)

/-- The default spline wavelet scaling function `_phi` (line 7). -/
def phi0 : List ℚ := [1 / 16, 1 / 4, 3 / 8, 1 / 4, 1 / 16]

/-- The loop of `starlet_transform` (lines 50-62) for an explicit level:
each iteration convolves with the (successively up-sampled) kernel, appends
`a - approx` (or the twice-smoothed difference for gen2), and finally
appends the last approximation. -/
def starletRec (gen2 approx_only : Bool) : ℕ → List ℚ → List ℚ → List (List ℚ)
  | 0, _, a => [a]
  | l + 1, phi, a =>
    let approx := convolve a phi
    let rest := starletRec gen2 approx_only l (up_sampling phi) approx
    if approx_only then rest
    else if gen2 then listSub a (convolve approx phi) :: rest
    else listSub a approx :: rest

/-- `starlet_transform` (lines 31-64).  With `level=None` (lines 41-42) the
code reads the unbound name `input_image` and raises `NameError`; with an
explicit level it runs the loop (`level <= 0` returns `[a]`, as does the
loop with zero iterations). -/
def starlet_transform (a : List ℚ) (level : Option ℕ) (gen2 approx_only : Bool)
    (phi : List ℚ) : Except String (List (List ℚ)) :=
  match level with
  | none => Except.error "NameError: input_image is not defined"
  | some l => Except.ok (starletRec gen2 approx_only l phi a)

/-- `starlet_smooth` (lines 67-68): first (only) element of the
approx-only transform. -/
def starlet_smooth (a : List ℚ) (level : Option ℕ) (phi : List ℚ) :
    Except String (List ℚ) :=
  (starlet_transform a level false true phi).map (fun W => W.headD [])

/-- `starlet_detrend` (lines 71-72). -/
def starlet_detrend (a : List ℚ) (level : Option ℕ) (phi : List ℚ) :
    Except String (List ℚ) :=
  (starlet_smooth a level phi).map (fun s => listSub a s)

/-- `np.median`: middle of the sorted list, mean of the two middles for
even length. -/
def npMedian (l : List ℚ) : ℚ :=
  let s := l.insertionSort (· ≤ ·)
  if l.length % 2 = 1 then s.getD (l.length / 2) 0
  else (s.getD (l.length / 2 - 1) 0 + s.getD (l.length / 2) 0) / 2

/-- `MAD` (lines 10-11). -/
def MAD (a : List ℚ) : ℚ := npMedian (a.map (fun x => |x - npMedian a|)) / (6745 / 10000)

/-- `scipy.ndimage.median_filter(a, size)` with the default `'reflect'`
boundary, centred window. -/
def median_filter (a : List ℚ) (size : ℕ) : List ℚ :=
  (List.range a.length).map (fun (j : ℕ) =>
    npMedian ((List.range size).map (fun (k : ℕ) =>
      reflectGet a ((j : ℤ) + (k : ℤ) - ((size / 2 : ℕ) : ℤ)))))

/-- The loop of `multiscale_median_transform` (lines 86-94): the window
scale doubles after the first iteration. -/
def mmtRec (approx_only : Bool) : ℕ → ℕ → List ℚ → List (List ℚ)
  | 0, _, a => [a]
  | l + 1, scale, a =>
    let approx := median_filter a (2 * scale + 1)
    let rest := mmtRec approx_only l (2 * scale) approx
    if approx_only then rest else listSub a approx :: rest

/-- `multiscale_median_transform` (lines 75-96); `level=None` reads the
unbound `input_image` (lines 78-79). -/
def multiscale_median_transform (a : List ℚ) (level : Option ℕ) (scale : ℕ)
    (approx_only : Bool) : Except String (List (List ℚ)) :=
  match level with
  | none => Except.error "NameError: input_image is not defined"
  | some l => Except.ok (mmtRec approx_only l scale a)

/-- `multiscale_median_smooth` (lines 99-100). -/
def multiscale_median_smooth (a : List ℚ) (level : Option ℕ) (scale : ℕ) :
    Except String (List ℚ) :=
  (multiscale_median_transform a level scale true).map (fun W => W.headD [])

/-- `multiscale_median_detrend` (lines 103-104). -/
def multiscale_median_detrend (a : List ℚ) (level : Option ℕ) (scale : ℕ) :
    Except String (List ℚ) :=
  (multiscale_median_smooth a level scale).map (fun s => listSub a s)

/-- `starlet_smooth` with an explicit level, as called inside
`median_wavelet_transform` (line 128) — never raises. -/
def starletSmoothP (a : List ℚ) (l : ℕ) (phi : List ℚ) : List ℚ :=
  (starletRec false true l phi a).headD []

/-- One iteration of `median_wavelet_transform` (lines 122-128): median
filter, threshold the residual at `tau * MAD`, add the clipped residual
back and starlet-smooth at level `li+1`. -/
def mwtStep (phi : List ℚ) (tau : ℚ) (scale li : ℕ) (a : List ℚ) : List ℚ :=
  let approx := median_filter a (2 * scale + 1)
  let w := listSub a approx
  let th := tau * MAD w
  let w2 := w.map (fun x => if th < |x| then 0 else x)
  starletSmoothP (listAdd approx w2) (li + 1) phi

/-- The loop of `median_wavelet_transform` (lines 119-134). -/
def mwtRec (phi : List ℚ) (tau : ℚ) (approx_only : Bool) :
    ℕ → ℕ → ℕ → List ℚ → List (List ℚ)
  | 0, _, _, a => [a]
  | l + 1, scale, li, a =>
    let approx := mwtStep phi tau scale li a
    let rest := mwtRec phi tau approx_only l (2 * scale) (li + 1) approx
    if approx_only then rest else listSub a approx :: rest

/-- `median_wavelet_transform` (lines 107-136); `level=None` reads the
unbound `input_image` (lines 110-111). -/
def median_wavelet_transform (a : List ℚ) (level : Option ℕ) (scale : ℕ) (tau : ℚ)
    (approx_only : Bool) (phi : List ℚ) : Except String (List (List ℚ)) :=
  match level with
  | none => Except.error "NameError: input_image is not defined"
  | some l => Except.ok (mwtRec phi tau approx_only l scale 0 a)

/-- `median_wavelet_smooth` (lines 139-140). -/
def median_wavelet_smooth (a : List ℚ) (level : Option ℕ) (scale : ℕ) (tau : ℚ)
    (phi : List ℚ) : Except String (List ℚ) :=
  (median_wavelet_transform a level scale tau true phi).map (fun W => W.headD [])

/-- `median_wavelet_detrend` (lines 143-144). -/
def median_wavelet_detrend (a : List ℚ) (level : Option ℕ) (scale : ℕ) (tau : ℚ)
    (phi : List ℚ) : Except String (List ℚ) :=
  (median_wavelet_smooth a level scale tau phi).map (fun s => listSub a s)

theorem convolve_length (a w : List ℚ) : (convolve a w).length = a.length := by
  rw [convolve, List.length_map, List.length_range]

theorem getD_listSub :
    ∀ (a b : List ℚ) (i : ℕ), i < a.length → i < b.length →
      (listSub a b).getD i 0 = a.getD i 0 - b.getD i 0 := by
  intro a
  induction a with
  | nil => intro b i hi _; exact absurd hi (by simp)
  | cons x xs ih =>
    intro b i hi hib
    cases b with
    | nil => exact absurd hib (by simp)
    | cons y ys =>
      cases i with
      | zero => rfl
      | succ i' =>
        simp only [listSub, List.zipWith_cons_cons, List.getD_cons_succ]
        exact ih ys i' (by simpa [Nat.succ_lt_succ_iff] using hi)
          (by simpa [Nat.succ_lt_succ_iff] using hib)

theorem starletRec_length (l : ℕ) :
    ∀ (phi a : List ℚ), (starletRec false false l phi a).length = l + 1 := by
  induction l with
  | zero => intro phi a; rfl
  | succ l ih =>
    intro phi a
    simp only [starletRec, Bool.false_eq_true, if_false, List.length_cons]
    rw [ih]

theorem starletRec_sum (l : ℕ) :
    ∀ (phi a : List ℚ) (i : ℕ), i < a.length →
      ((starletRec false false l phi a).map (fun w => w.getD i 0)).sum = a.getD i 0 := by
  induction l with
  | zero =>
    intro phi a i _
    simp [starletRec]
  | succ l ih =>
    intro phi a i hi
    have hlen : i < (convolve a phi).length := by rw [convolve_length]; exact hi
    simp only [starletRec, Bool.false_eq_true, if_false, List.map_cons, List.sum_cons]
    rw [getD_listSub a (convolve a phi) i hi hlen,
      ih (up_sampling phi) (convolve a phi) i hlen]
    ring

/-- C9.  For every input array and every `level ≥ 1`,
`starlet_transform(a, level, gen2=False, approx_only=False)` returns
exactly `level + 1` sub-band arrays whose element-wise sum telescopes back
to the input exactly. -/
theorem starlet_transform_reconstruction (a : List ℚ) (level : ℕ) (W : List (List ℚ))
    (i : ℕ) (_hlevel : 1 ≤ level)
    (hW : starlet_transform a (some level) false false phi0 = Except.ok W)
    (hi : i < a.length) :
    W.length = level + 1 ∧ (W.map (fun w => w.getD i 0)).sum = a.getD i 0 := by
  have hWeq : starletRec false false level phi0 a = W := by
    simpa [starlet_transform] using hW
  rw [← hWeq]
  exact ⟨starletRec_length level phi0 a, starletRec_sum level phi0 a i hi⟩

theorem starlet_transform_reconstruction_witness :
    (1 ≤ 1) ∧
    (starlet_transform [(3 : ℚ), 5] (some 1) false false phi0 =
      Except.ok (starletRec false false 1 phi0 [(3 : ℚ), 5])) ∧
    ((0 : ℕ) < ([(3 : ℚ), 5]).length) ∧
    ((starletRec false false 1 phi0 [(3 : ℚ), 5]).length = 1 + 1 ∧
      ((starletRec false false 1 phi0 [(3 : ℚ), 5]).map (fun w => w.getD 0 0)).sum =
        ([(3 : ℚ), 5]).getD 0 0) :=
  ⟨by decide, rfl, by decide,
    starlet_transform_reconstruction [(3 : ℚ), 5] 1 _ 0 (by decide) rfl (by decide)⟩

/-- C10.  Calling `starlet_transform`, `multiscale_median_transform` or
`median_wavelet_transform` with the default `level=None` raises `NameError`
instead of computing a default level — the `level == None` branch reads the
undefined name `input_image` rather than the parameter `a` — and so every
smooth/detrend wrapper also fails when called without an explicit level. -/
theorem default_level_name_error (a : List ℚ) (gen2 approx_only : Bool) (phi : List ℚ)
    (scale : ℕ) (tau : ℚ) :
    starlet_transform a none gen2 approx_only phi =
      Except.error "NameError: input_image is not defined" ∧
    multiscale_median_transform a none scale approx_only =
      Except.error "NameError: input_image is not defined" ∧
    median_wavelet_transform a none scale tau approx_only phi =
      Except.error "NameError: input_image is not defined" ∧
    starlet_smooth a none phi = Except.error "NameError: input_image is not defined" ∧
    starlet_detrend a none phi = Except.error "NameError: input_image is not defined" ∧
    multiscale_median_smooth a none scale =
      Except.error "NameError: input_image is not defined" ∧
    multiscale_median_detrend a none scale =
      Except.error "NameError: input_image is not defined" ∧
    median_wavelet_smooth a none scale tau phi =
      Except.error "NameError: input_image is not defined" ∧
    median_wavelet_detrend a none scale tau phi =
      Except.error "NameError: input_image is not defined" :=
  ⟨rfl, rfl, rfl, rfl, rfl, rfl, rfl, rfl, rfl⟩
